import Mathlib

/-!
Shallow embedding of the `devtools` IMU pipeline:
`imu_calibration/serial_capture.py` (live capture: line framer, record
classifier, acquisition loop), `imudata2/accely/serial_capture.py`
(quaternion-free capture variant), `imu_calibration/imu_data_process.py`
(7-field batch processor) and `imu_calibration/process_imu.py`
(14-field batch processor).

Python floats are idealized as exact rationals (`ℚ`); text is modelled
as `List Char` (Python `str` codepoints) and raw serial bytes as
`List Nat` (each `< 256`).
-/

namespace Devtools

/-! ## Text utilities (Python `str` operations used by the scripts) -/

/-- Python's default `str.strip` whitespace set (ASCII part, which is all
the repository's data can contain). -/
def wsChar (c : Char) : Bool :=
  c = ' ' || c = '\t' || c = '\n' || c = '\r' || c = '\x0b' || c = '\x0c'

/-- Python `s.strip()`: drop leading and trailing whitespace. -/
def pyStrip (l : List Char) : List Char :=
  ((l.dropWhile wsChar).reverse.dropWhile wsChar).reverse

/-- Python `s.split(sep)` for a single-character separator `sep`:
`"".split(',') = [""]`, `"a,,b".split(',') = ["a","","b"]`. -/
def splitOnChar (sep : Char) : List Char → List (List Char)
  | [] => [[]]
  | c :: rest =>
    let r := splitOnChar sep rest
    if c = sep then [] :: r
    else
      match r with
      | [] => [[c]]
      | f :: t => (c :: f) :: t

/-- Python `s.count(c)` for a single character. -/
def countChar (c : Char) (l : List Char) : Nat :=
  (l.filter (fun x => x = c)).length

/-! ## Numeric literal parsing (Python `int(s)` / `float(s)`)

The model covers the decimal fragment Python accepts for the data this
repository handles: optional surrounding whitespace, one optional sign,
digits with an optional fractional part, and for `float` an optional
decimal exponent.  (Python extras such as `inf`, `nan` and `_` digit
separators never appear in sensor data and are not modelled.) -/

def isDigitChar (c : Char) : Bool := '0' ≤ c && c ≤ '9'

def digitVal (c : Char) : Nat := c.toNat - '0'.toNat

def natOfDigits (cs : List Char) : Nat :=
  cs.foldl (fun acc c => 10 * acc + digitVal c) 0

/-- An unsigned decimal integer literal: one or more digits. -/
def pyIntDigits? (cs : List Char) : Option ℤ :=
  if cs.all isDigitChar && !cs.isEmpty then some (natOfDigits cs : ℤ) else none

/-- A signed decimal integer literal. -/
def pyIntSigned? : List Char → Option ℤ
  | '+' :: rest => pyIntDigits? rest
  | '-' :: rest => (pyIntDigits? rest).map Neg.neg
  | cs => pyIntDigits? cs

/-- Python `int(s)`: strips whitespace, then requires a pure signed
decimal integer — a `.` or exponent makes it raise `ValueError`
(modelled as `none`). -/
def pyInt? (cs : List Char) : Option ℤ := pyIntSigned? (pyStrip cs)

/-- Syntactic shape of an accepted float literal: sign, integer part,
fractional digits (value and digit count) and decimal exponent.
Keeping this stage over `ℕ`/`ℤ` makes it kernel-computable. -/
structure FloatRepr where
  neg : Bool
  intPart : Nat
  fracPart : Nat
  fracLen : Nat
  exp : Int
deriving DecidableEq, Repr

/-- Unsigned mantissa of a float literal: `digits`, `digits.`,
`digits.digits` or `.digits`. -/
def mantissaRepr? (cs : List Char) : Option (Nat × Nat × Nat) :=
  let ip := cs.takeWhile isDigitChar
  match cs.dropWhile isDigitChar with
  | [] => if ip.isEmpty then none else some (natOfDigits ip, 0, 0)
  | '.' :: frac =>
    if frac.all isDigitChar && !(ip.isEmpty && frac.isEmpty) then
      some (natOfDigits ip, natOfDigits frac, frac.length)
    else none
  | _ => none

/-- Float literal without leading sign: mantissa with optional
`e`/`E`-exponent. -/
def floatNoSign? (cs : List Char) : Option FloatRepr :=
  let notExp : Char → Bool := fun c => !(c = 'e' || c = 'E')
  match cs.dropWhile notExp with
  | [] => (mantissaRepr? cs).map fun m => ⟨false, m.1, m.2.1, m.2.2, 0⟩
  | _ :: ex => do
    let m ← mantissaRepr? (cs.takeWhile notExp)
    let e ← pyIntSigned? ex
    pure ⟨false, m.1, m.2.1, m.2.2, e⟩

/-- A signed float literal. -/
def floatLit? : List Char → Option FloatRepr
  | '+' :: rest => floatNoSign? rest
  | '-' :: rest => (floatNoSign? rest).map fun r => ⟨true, r.intPart, r.fracPart, r.fracLen, r.exp⟩
  | cs => floatNoSign? cs

/-- Exact rational value of a float literal. -/
def FloatRepr.val (r : FloatRepr) : ℚ :=
  (if r.neg then -1 else 1) * ((r.intPart : ℚ) + (r.fracPart : ℚ) / 10 ^ r.fracLen) * 10 ^ r.exp

/-- Python `float(s)` on decimal literals, idealized to exact `ℚ`. -/
def pyFloat? (cs : List Char) : Option ℚ := (floatLit? (pyStrip cs)).map FloatRepr.val

/-- Python `int(x)` on a nonnegative number truncates (= floor). Both
scripts apply it only to nonnegative timestamps; the negative branch
models CPython's round-toward-zero. -/
def pyTruncInt (q : ℚ) : ℤ := if 0 ≤ q then ⌊q⌋ else -⌊-q⌋

/-! ## Line Framer (`serial_capture.py`, the `while b'\n' in buffer` loop)

Bytes are `Nat`s below 256; the terminator is byte 10 (`\n`). -/

/-- One framing pass over the byte buffer: the spans strictly before each
newline byte, in order, and the remaining buffer after the last newline
(`buffer[:line_end]` / `del buffer[:line_end+1]` repeated while a
newline is present). -/
def extractLines : List Nat → List (List Nat) × List Nat
  | [] => ([], [])
  | b :: rest =>
    let r := extractLines rest
    if b = 10 then ([] :: r.1, r.2)
    else
      match r.1 with
      | [] => ([], b :: r.2)
      | l :: ls => ((b :: l) :: ls, r.2)

/-- UTF-8 continuation byte. -/
def isCont (b : Nat) : Bool := 0x80 ≤ b && b ≤ 0xBF

/-- Admissible second byte of a 3-byte UTF-8 sequence (excludes overlong
forms and surrogates, as CPython's strict decoder does). -/
def utf8Second3 (b c : Nat) : Bool :=
  if b = 0xE0 then 0xA0 ≤ c && c ≤ 0xBF
  else if b = 0xED then 0x80 ≤ c && c ≤ 0x9F
  else isCont c

/-- Admissible second byte of a 4-byte UTF-8 sequence. -/
def utf8Second4 (b c : Nat) : Bool :=
  if b = 0xF0 then 0x90 ≤ c && c ≤ 0xBF
  else if b = 0xF4 then 0x80 ≤ c && c ≤ 0x8F
  else isCont c

/-- Strict UTF-8 decoding (`bytes.decode("utf-8")`): `none` models a
`UnicodeDecodeError`. -/
def utf8Decode? : List Nat → Option (List Char)
  | [] => some []
  | b :: rest =>
    if b ≤ 0x7F then
      (utf8Decode? rest).map (fun cs => Char.ofNat b :: cs)
    else if 0xC2 ≤ b && b ≤ 0xDF then
      match rest with
      | c1 :: rest2 =>
        if isCont c1 then
          (utf8Decode? rest2).map (fun cs =>
            Char.ofNat ((b - 0xC0) * 0x40 + (c1 - 0x80)) :: cs)
        else none
      | [] => none
    else if 0xE0 ≤ b && b ≤ 0xEF then
      match rest with
      | c1 :: c2 :: rest3 =>
        if utf8Second3 b c1 && isCont c2 then
          (utf8Decode? rest3).map (fun cs =>
            Char.ofNat ((b - 0xE0) * 0x1000 + (c1 - 0x80) * 0x40 + (c2 - 0x80)) :: cs)
        else none
      | _ => none
    else if 0xF0 ≤ b && b ≤ 0xF4 then
      match rest with
      | c1 :: c2 :: c3 :: rest4 =>
        if utf8Second4 b c1 && isCont c2 && isCont c3 then
          (utf8Decode? rest4).map (fun cs =>
            Char.ofNat ((b - 0xF0) * 0x40000 + (c1 - 0x80) * 0x1000 +
              (c2 - 0x80) * 0x40 + (c3 - 0x80)) :: cs)
        else none
      | _ => none
    else none

/-- `bytes.decode("ISO-8859-1")`: total, each byte becomes the codepoint
of the same value. -/
def latin1Decode (bs : List Nat) : List Char := bs.map Char.ofNat

/-- The scripts' decode policy: UTF-8, falling back to ISO-8859-1 on a
`UnicodeDecodeError`. Total by construction. -/
def decodeSpan (bs : List Nat) : List Char :=
  match utf8Decode? bs with
  | some cs => cs
  | none => latin1Decode bs

/-- A drained line as the classifier receives it:
`buffer[:line_end].decode(...).strip()`. -/
def decodedLine (span : List Nat) : List Char := pyStrip (decodeSpan span)

/-- Feeding one read's bytes to the framer (`if data:` guard, then
buffer extension and a full draining pass). State: decoded lines
produced so far, pending buffer. -/
def framerStep (st : List (List Char) × List Nat) (chunk : List Nat) :
    List (List Char) × List Nat :=
  if chunk.isEmpty then st
  else
    let er := extractLines (st.2 ++ chunk)
    (st.1 ++ er.1.map decodedLine, er.2)

/-- The whole framing run over a sequence of reads. -/
def framerRun (chunks : List (List Nat)) : List (List Char) × List Nat :=
  chunks.foldl framerStep ([], [])

/-- Same feed loop, but collecting the raw byte spans instead of the
decoded lines (used to state that no span is dropped by decoding). -/
def framerSpansStep (st : List (List Nat) × List Nat) (chunk : List Nat) :
    List (List Nat) × List Nat :=
  if chunk.isEmpty then st
  else
    let er := extractLines (st.2 ++ chunk)
    (st.1 ++ er.1, er.2)

/-- The spans-only framing run. -/
def framerSpans (chunks : List (List Nat)) : List (List Nat) × List Nat :=
  chunks.foldl framerSpansStep ([], [])

/-! ## Record classifier (`imu_calibration/serial_capture.py` lines 54–84) -/

/-- `line.replace("Quaternion: ", "")` — removes every occurrence of the
12-character marker, scanning left to right. -/
def removeQuatMarker : List Char → List Char
  | 'Q' :: 'u' :: 'a' :: 't' :: 'e' :: 'r' :: 'n' :: 'i' :: 'o' :: 'n' :: ':' :: ' ' :: rest =>
    removeQuatMarker rest
  | c :: rest => c :: removeQuatMarker rest
  | [] => []

/-- Python `s.split(", ")` (two-character separator, leftmost-first). -/
def splitCommaSpace : List Char → List (List Char)
  | ',' :: ' ' :: rest => [] :: splitCommaSpace rest
  | c :: rest =>
    match splitCommaSpace rest with
    | [] => [[c]]
    | f :: t => (c :: f) :: t
  | [] => [[]]

/-- `part.split('=')[1]` then `float(...)`: `none` models the caught
`IndexError`/`ValueError`. -/
def eqField? (p : List Char) : Option ℚ :=
  match splitOnChar '=' p with
  | _ :: v :: _ => pyFloat? v
  | _ => none

/-- The quaternion branch (lines 55–61): strip the marker, split on
`", "`, parse `w, x, y, z` in order; any failure is invalid. -/
def parseQuat? (line : List Char) : Option (ℚ × ℚ × ℚ × ℚ) :=
  match splitCommaSpace (removeQuatMarker line) with
  | p0 :: p1 :: p2 :: p3 :: _ => do
    let w ← eqField? p0
    let x ← eqField? p1
    let y ← eqField? p2
    let z ← eqField? p3
    pure (w, x, y, z)
  | _ => none

/-- A parsed 7-field sensor record: `accel + gyro + [temp]` with three
float accelerometer values, three float gyroscope values and an integer
temperature. -/
structure Sensor7 where
  accel : List ℚ
  gyro : List ℚ
  temp : ℤ
deriving DecidableEq, Repr

/-- The 7-field branch (lines 68–79): fields 0–2 and 3–5 via `float`,
field 6 via `int`; `none` models the caught `ValueError`/`IndexError`. -/
def parseSensor7? (line : List Char) : Option Sensor7 :=
  let parts := splitOnChar ',' line
  do
    let a0 ← pyFloat? (parts.getD 0 [])
    let a1 ← pyFloat? (parts.getD 1 [])
    let a2 ← pyFloat? (parts.getD 2 [])
    let g0 ← pyFloat? (parts.getD 3 [])
    let g1 ← pyFloat? (parts.getD 4 [])
    let g2 ← pyFloat? (parts.getD 5 [])
    let t ← pyInt? (parts.getD 6 [])
    pure ⟨[a0, a1, a2], [g0, g1, g2], t⟩

/-- Classification result for one decoded line. -/
inductive CapRecord where
  | quat (w x y z : ℚ)
  | sensor (r : Sensor7)
  | invalid
deriving DecidableEq, Repr

/-- The live-capture dispatch: `startswith("Quaternion:")` first, then
`line.count(',') == 6`, else invalid. -/
def classifyLine (line : List Char) : CapRecord :=
  if ("Quaternion:".data).isPrefixOf line then
    match parseQuat? line with
    | some (w, x, y, z) => .quat w x y z
    | none => .invalid
  else if countChar ',' line = 6 then
    match parseSensor7? line with
    | some r => .sensor r
    | none => .invalid
  else .invalid

/-! ## Acquisition loop (`capture_serial_data`) -/

/-- Mutable state of the acquisition loop. -/
structure CaptureState where
  raw : List Sensor7
  filtered : List Sensor7
  quat : List (ℚ × ℚ × ℚ × ℚ)
  invalidCount : Nat
  buffer : List Nat
deriving DecidableEq, Repr

def initCaptureState : CaptureState := ⟨[], [], [], 0, []⟩

/-- Handling one decoded line (lines 54–84): a quaternion record goes to
`quat_data`; a parsed 7-field record is appended verbatim to *both*
`raw_data` and `filtered_data` (lines 76 and 79); everything else bumps
`invalid_count`. -/
def captureClassify (st : CaptureState) (line : List Char) : CaptureState :=
  match classifyLine line with
  | .quat w x y z => { st with quat := st.quat ++ [(w, x, y, z)] }
  | .sensor r => { st with raw := st.raw ++ [r], filtered := st.filtered ++ [r] }
  | .invalid => { st with invalidCount := st.invalidCount + 1 }

/-- One polling iteration that yielded `chunk`: extend the buffer, drain
all complete lines, classify each in order. -/
def captureFeed (st : CaptureState) (chunk : List Nat) : CaptureState :=
  if chunk.isEmpty then st
  else
    let er := extractLines (st.buffer ++ chunk)
    (er.1.map decodedLine).foldl captureClassify
      { st with buffer := er.2 }

/-- One `ser.read_all()` outcome: bytes, or a `SerialException`. -/
abbrev ReadEvent := Except Unit (List Nat)

/-- The polling loop over the reads that happen before the wall-clock
deadline; a `SerialException` aborts it at once (remaining events are
never looked at). -/
def captureLoop : CaptureState → List ReadEvent → Except Unit CaptureState
  | st, [] => .ok st
  | st, .ok bytes :: rest => captureLoop (captureFeed st bytes) rest
  | _, .error _ :: _ => .error ()

instance {ε α : Type} [DecidableEq ε] [DecidableEq α] : DecidableEq (Except ε α) :=
  fun x y =>
    match x, y with
    | .ok a, .ok b =>
      if h : a = b then isTrue (by rw [h]) else isFalse (by intro he; cases he; exact h rfl)
    | .error a, .error b =>
      if h : a = b then isTrue (by rw [h]) else isFalse (by intro he; cases he; exact h rfl)
    | .ok _, .error _ => isFalse (by intro he; cases he)
    | .error _, .ok _ => isFalse (by intro he; cases he)

/-- The tuple `capture_serial_data` returns on success:
`(raw_data, filtered_data, quat_data, invalid_count)`. -/
structure CaptureReturn where
  raw_data : List Sensor7
  filtered_data : List Sensor7
  quat_data : List (ℚ × ℚ × ℚ × ℚ)
  invalid_count : Nat
deriving DecidableEq, Repr

/-- Observable outcome of `capture_serial_data`.  `result = .ok v` is the
function's return value; `result = .error code` models `sys.exit(code)` —
the process terminates and *nothing* is returned to a caller.
`portClosed` records the `finally: ser.close()` that runs on every
path. -/
structure CaptureOutcome where
  result : Except Nat CaptureReturn
  portClosed : Bool
deriving DecidableEq, Repr

/-- `capture_serial_data` (lines 6–94): run the loop; on
`SerialException` print and `sys.exit(1)` (lines 89–91); the `finally`
block closes the port either way. -/
def capture_serial_data (reads : List ReadEvent) : CaptureOutcome :=
  match captureLoop initCaptureState reads with
  | .ok st => ⟨.ok ⟨st.raw, st.filtered, st.quat, st.invalidCount⟩, true⟩
  | .error _ => ⟨.error 1, true⟩

/-! ## Calibration profile and shared helpers -/

/-- A calibration profile: three 3-element Python lists
(`load_calibration`). -/
structure Calib where
  accel_bias : List ℚ
  accel_scale : List ℚ
  gyro_bias : List ℚ
deriving DecidableEq, Repr

/-- The default profile used when no calibration file loads. -/
def defaultCalib : Calib := ⟨[0, 0, 0], [1, 1, 1], [0, 0, 0]⟩

/-- `[(raw[i] - accel_bias[i]) * accel_scale[i] for i in range(3)]`. -/
def calibAccel (calib : Calib) (raws : List ℚ) : List ℚ :=
  (List.range 3).map fun i =>
    (raws.getD i 0 - calib.accel_bias.getD i 0) * calib.accel_scale.getD i 0

/-- `raw[i] - gyro_bias[i] for i in range(3)` (bias only, no scale). -/
def calibGyro (calib : Calib) (raws : List ℚ) : List ℚ :=
  (List.range 3).map fun i => raws.getD i 0 - calib.gyro_bias.getD i 0

/-- The 7-field variant reads its gyroscope inputs at offsets 3–5 of the
whole record: `parts[i+3] - gyro_bias[i]`. -/
def calibGyro7 (calib : Calib) (parts : List ℚ) : List ℚ :=
  (List.range 3).map fun i => parts.getD (i + 3) 0 - calib.gyro_bias.getD i 0

/-- `for i in range(3): chs[i].append(vals[i])` on a 3-channel list. -/
def appendEach (chs : List (List ℚ)) (vals : List ℚ) : List (List ℚ) :=
  List.zipWith (fun ch v => ch ++ [v]) chs vals

/-- `defaultdict(list)` append `temp_windows[k].append(v)`, preserving
key insertion order. -/
def dictAppend (ws : List (ℤ × List ℚ)) (k : ℤ) (v : ℚ) : List (ℤ × List ℚ) :=
  match ws with
  | [] => [(k, [v])]
  | (k0, vs) :: rest =>
    if k0 = k then (k0, vs ++ [v]) :: rest else (k0, vs) :: dictAppend rest k v

/-- Dict lookup `temp_windows[idx]` (keys are unique by construction). -/
def lookupW (k : ℤ) : List (ℤ × List ℚ) → Option (List ℚ)
  | [] => none
  | (k0, vs) :: rest => if k0 = k then some vs else lookupW k rest

/-- `for idx in sorted(temp_windows.keys()): values = temp_windows[idx];
if values: append (idx*0.1 + 0.05, sum(values)/len(values))` — the
emitted `(window_center, average)` points. -/
def windowPoints (ws : List (ℤ × List ℚ)) : List (ℚ × ℚ) :=
  ((ws.map Prod.fst).insertionSort (· ≤ ·)).filterMap fun idx =>
    match lookupW idx ws with
    | some vs =>
      if vs.isEmpty then none
      else some ((idx : ℚ) * (1 / 10) + 5 / 100, vs.sum / (vs.length : ℚ))
    | none => none

/-- The per-sample aggregation action both processors perform: append the
temperature to the bucket `int(t * 10)` of its timestamp. -/
def buildWindows (samples : List (ℚ × ℚ)) : List (ℤ × List ℚ) :=
  samples.foldl (fun ws s => dictAppend ws (pyTruncInt (s.1 * 10)) s.2) []

/-- Modelled from the spec (§4.5): one point per non-empty window,
windows visited in ascending index order, each reported at centre
`idx*0.1 + 0.05` with the arrival-ordered average of the temperatures
whose `floor(timestamp*10)` equals `idx`; empty windows are omitted. -/
def specWindowPoints (samples : List (ℚ × ℚ)) : List (ℚ × ℚ) :=
  (((samples.map fun s => pyTruncInt (s.1 * 10)).dedup).insertionSort (· ≤ ·)).map fun (k : ℤ) =>
    ((k : ℚ) * (1 / 10) + 5 / 100,
      ((samples.filter fun s => decide (pyTruncInt (s.1 * 10) = k)).map Prod.snd).sum /
        (((samples.filter fun s => decide (pyTruncInt (s.1 * 10) = k)).map Prod.snd).length : ℚ))

/-! ## 7-field batch processor (`imu_data_process.py`) -/

/-- Lines 42–44: `parts = list(map(float, line.strip().split(',')))`,
then `len(parts) == 7`; `none` models the caught `ValueError`. -/
def parse7? (line : List Char) : Option (List ℚ) :=
  let parts := splitOnChar ',' (pyStrip line)
  if parts.all (fun p => (pyFloat? p).isSome) then
    let vals := parts.filterMap pyFloat?
    if vals.length = 7 then some vals else none
  else none

/-- The accumulating lists of `imu_data_process.process_imu_data`. -/
structure Proc7State where
  time_stamps : List ℚ
  accel : List (List ℚ)
  gyro : List (List ℚ)
  temperature : List ℚ
  temp_windows : List (ℤ × List ℚ)
deriving DecidableEq, Repr

def initProc7 : Proc7State := ⟨[], [[], [], []], [[], [], []], [], []⟩

/-- One `(line_num, line)` iteration of the loop (lines 39–67): a parse
failure skips the line; a valid line appends calibrated channels, the
timestamp `line_num * 0.005` (the *raw* enumerate index), the raw
temperature, and buckets the temperature at `int(t * 10)`. -/
def step7 (calib : Calib) (st : Proc7State) (p : ℕ × List Char) : Proc7State :=
  match parse7? p.2 with
  | none => st
  | some parts =>
    let t : ℚ := (p.1 : ℚ) * (5 / 1000)
    { time_stamps := st.time_stamps ++ [t]
      accel := appendEach st.accel (calibAccel calib parts)
      gyro := appendEach st.gyro (calibGyro7 calib parts)
      temperature := st.temperature ++ [parts.getD 6 0]
      temp_windows := dictAppend st.temp_windows (pyTruncInt (t * 10)) (parts.getD 6 0) }

/-- `imu_data_process.process_imu_data`'s reading loop
(`for line_num, line in enumerate(f)`). -/
def imu_data_process (calib : Calib) (lines : List (List Char)) : Proc7State :=
  lines.enum.foldl (step7 calib) initProc7

/-- Per-channel statistics. `stdSq` holds the radicands of the standard
deviations: the code stores `(...)**0.5` of exactly these values, and
`std = 0` iff `stdSq = 0`; tracking the squares keeps the model in `ℚ`. -/
structure Stats where
  bias : List ℚ
  stdSq : List ℚ
  unit : String
deriving DecidableEq, Repr

/-- `imu_data_process.py` `calc_stats` (lines 70–80): **no** empty-channel
guard — `sum(ch)/len(ch)` raises `ZeroDivisionError` (modelled `none`)
as soon as some channel is empty. -/
def calc_stats7 (data : List (List ℚ)) (unit : String) : Option Stats :=
  if data.all (fun ch => !ch.isEmpty) then
    let means := data.map fun ch => ch.sum / (ch.length : ℚ)
    some ⟨means,
      (data.zip means).map fun pm => ((pm.1.map fun x => (x - pm.2) ^ 2).sum / (pm.1.length : ℚ)),
      unit⟩
  else none

/-- The result dictionary of `imu_data_process.process_imu_data`
(lines 92–99); `none` when `calc_stats` raises. -/
structure Results7 where
  accelStats : Stats
  gyroStats : Stats
  temp_raw : List ℚ × List ℚ
  accel_raw : List ℚ × List (List ℚ)
  gyro_raw : List ℚ × List (List ℚ)
  temp_avg : List ℚ × List ℚ
deriving DecidableEq, Repr

/-- The whole of `imu_data_process.process_imu_data`: loop, temperature
windows, statistics. -/
def imu_data_process_results (calib : Calib) (lines : List (List Char)) :
    Option Results7 :=
  let st := imu_data_process calib lines
  do
    let accelStats ← calc_stats7 st.accel "g"
    let gyroStats ← calc_stats7 st.gyro "dps"
    let pts := windowPoints st.temp_windows
    pure ⟨accelStats, gyroStats, (st.time_stamps, st.temperature),
      (st.time_stamps, st.accel), (st.time_stamps, st.gyro),
      (pts.map Prod.fst, pts.map Prod.snd)⟩

/-! ## 14-field batch processor (`process_imu.py`) -/

/-- One CSV row as `csv.reader` yields it: a list of field strings. -/
abbrev Row := List (List Char)

/-- The parsed fields of a 14-column row (lines 214–219). -/
structure Rec14 where
  accel_raw : List ℚ
  gyro_raw : List ℚ
  temp : ℤ
  accel_filt : List ℚ
  gyro_filt : List ℚ
  temp_filt : ℤ
deriving DecidableEq, Repr

/-- Field conversion of a 14-column row; `none` models the caught
`ValueError`. -/
def parseRow14? (parts : Row) : Option Rec14 := do
  let a ← (parts.take 3).mapM pyFloat?
  let g ← ((parts.drop 3).take 3).mapM pyFloat?
  let t ← pyInt? (parts.getD 6 [])
  let af ← ((parts.drop 7).take 3).mapM pyFloat?
  let gf ← ((parts.drop 10).take 3).mapM pyFloat?
  let tf ← pyInt? (parts.getD 13 [])
  pure ⟨a, g, t, af, gf, tf⟩

/-- The accumulating lists of `process_imu.process_imu_data`. -/
structure Proc14State where
  time_stamps : List ℚ
  accel : List (List ℚ)
  gyro : List (List ℚ)
  accel_filt : List (List ℚ)
  gyro_filt : List (List ℚ)
  temperature : List ℤ
  temp_filt : List ℤ
  temp_windows : List (ℤ × List ℚ)
  valid_line_count : ℕ
deriving DecidableEq, Repr

def initProc14 : Proc14State :=
  ⟨[], [[], [], []], [[], [], []], [[], [], []], [[], [], []], [], [], [], 0⟩

/-- One data row of the loop (lines 207–245): wrong column count or a
conversion failure skips the row; a valid row appends the calibrated raw
channels, the filtered channels verbatim, the timestamp
`valid_line_count * 0.005` (then increments the counter), both
temperatures, and buckets the raw temperature at `int(t * 10)`. -/
def step14 (calib : Calib) (st : Proc14State) (parts : Row) : Proc14State :=
  if parts.length ≠ 14 then st
  else
    match parseRow14? parts with
    | none => st
    | some r =>
      let t : ℚ := (st.valid_line_count : ℚ) * (5 / 1000)
      { time_stamps := st.time_stamps ++ [t]
        accel := appendEach st.accel (calibAccel calib r.accel_raw)
        gyro := appendEach st.gyro (calibGyro calib r.gyro_raw)
        accel_filt := appendEach st.accel_filt r.accel_filt
        gyro_filt := appendEach st.gyro_filt r.gyro_filt
        temperature := st.temperature ++ [r.temp]
        temp_filt := st.temp_filt ++ [r.temp_filt]
        temp_windows := dictAppend st.temp_windows (pyTruncInt (t * 10)) (r.temp : ℚ)
        valid_line_count := st.valid_line_count + 1 }

/-- `process_imu.process_imu_data`'s reading phase (lines 203–245):
`next(csv_reader)` discards the first row *unconditionally*; on a
zero-row file that `next` raises an uncaught `StopIteration`
(modelled `Except.error ()`). -/
def process_imu_data (calib : Calib) (rows : List Row) : Except Unit Proc14State :=
  match rows with
  | [] => .error ()
  | _ :: body => .ok (body.foldl (step14 calib) initProc14)

/-- `process_imu.py` `calc_stats` (lines 248–254): guarded — when any
channel is empty it returns zero bias/std with the unit label, instead
of dividing by zero. -/
def calc_stats14 (data : List (List ℚ)) (unit : String) : Stats :=
  if data.all (fun ch => decide (0 < ch.length)) then
    let means := data.map fun ch => ch.sum / (ch.length : ℚ)
    ⟨means,
      (data.zip means).map fun pm => ((pm.1.map fun x => (x - pm.2) ^ 2).sum / (pm.1.length : ℚ)),
      unit⟩
  else ⟨[0, 0, 0], [0, 0, 0], unit⟩

/-- Modelled from the spec (§4.3 step 2): on a line with exactly 6 commas
the classifier parses fields 0–2 as accelerometer floats, 3–5 as
gyroscope floats and field 6 as an integer temperature. -/
def specParse7 (line : List Char) : Option Sensor7 :=
  match splitOnChar ',' line with
  | [f0, f1, f2, f3, f4, f5, f6] => do
    let a0 ← pyFloat? f0
    let a1 ← pyFloat? f1
    let a2 ← pyFloat? f2
    let g0 ← pyFloat? f3
    let g1 ← pyFloat? f4
    let g2 ← pyFloat? f5
    let t ← pyInt? f6
    pure ⟨[a0, a1, a2], [g0, g1, g2], t⟩
  | _ => none

/-! ## Sanity examples -/

example : splitOnChar ',' "a,,b".data = ["a".data, [], "b".data] := by decide
example : countChar ',' "1,2,3,4,5,6,25".data = 6 := by decide
example : pyStrip "  ab ".data = "ab".data := by decide
example : pyInt? "25".data = some 25 := by decide
example : pyInt? "-7".data = some (-7) := by decide
example : pyInt? "25.5".data = none := by decide
example : pyFloat? "25.5".data = some (51 / 2) := by
  have h : floatLit? (pyStrip "25.5".data) = some ⟨false, 25, 5, 1, 0⟩ := by decide
  simp [pyFloat?, h, FloatRepr.val]; norm_num
example : pyFloat? "3".data = some 3 := by
  have h : floatLit? (pyStrip "3".data) = some ⟨false, 3, 0, 0, 0⟩ := by decide
  simp [pyFloat?, h, FloatRepr.val]
example : pyFloat? "-1.5e2".data = some (-150) := by
  have h : floatLit? (pyStrip "-1.5e2".data) = some ⟨true, 1, 5, 1, 2⟩ := by decide
  simp [pyFloat?, h, FloatRepr.val]; norm_num
example : pyFloat? "".data = none := by decide
example : pyFloat? "1,2".data = none := by decide
example : pyTruncInt (51 / 2) = 25 := by norm_num [pyTruncInt]
example : extractLines [49, 10, 50, 51, 10, 52] = ([[49], [50, 51]], [52]) := by decide
example : extractLines [49, 50] = ([], [49, 50]) := by decide
example : framerRun [[49, 10], [50]] = ([['1']], [50]) := by decide
example : utf8Decode? [255] = none := by decide
example : decodeSpan [255] = [Char.ofNat 255] := by decide
example : utf8Decode? [0xC3, 0xA9] = some [Char.ofNat 0xE9] := by decide

/-! ### Framer lemmas -/

theorem extractLines_fst_nil :
    ∀ l : List Nat, (extractLines l).1 = [] → (extractLines l).2 = l := by
  intro l
  induction l with
  | nil => intro _; rfl
  | cons b rest ih =>
    intro h
    by_cases hb : b = 10
    · simp [extractLines, hb] at h
    · rcases hf : (extractLines rest).1 with _ | ⟨l0, ls⟩
      · simp [extractLines, hb, hf]
        exact ih hf
      · simp [extractLines, hb, hf] at h

theorem extractLines_no_newline : ∀ l : List Nat, 10 ∉ (extractLines l).2 := by
  intro l
  induction l with
  | nil => simp [extractLines]
  | cons b rest ih =>
    by_cases hb : b = 10
    · simpa [extractLines, hb] using ih
    · rcases hf : (extractLines rest).1 with _ | ⟨l0, ls⟩
      · simp [extractLines, hb, hf]
        exact ⟨fun h => hb h.symm, ih⟩
      · simpa [extractLines, hb, hf] using ih

theorem extractLines_of_no_newline :
    ∀ l : List Nat, 10 ∉ l → extractLines l = ([], l) := by
  intro l
  induction l with
  | nil => intro _; rfl
  | cons b rest ih =>
    intro h
    have hb : ¬b = 10 := fun hbe => h (by simp [hbe])
    have hr : 10 ∉ rest := fun hm => h (List.mem_cons_of_mem _ hm)
    simp [extractLines, hb, ih hr]

/-- Framing a concatenation: frame the first part, then the remainder
prepended to the second part. -/
theorem extractLines_append (x y : List Nat) :
    extractLines (x ++ y) =
      ((extractLines x).1 ++ (extractLines ((extractLines x).2 ++ y)).1,
        (extractLines ((extractLines x).2 ++ y)).2) := by
  induction x with
  | nil => simp [extractLines]
  | cons b x' ih =>
    by_cases hb : b = 10
    · subst hb
      simp [extractLines, ih]
    · rcases hf : (extractLines x').1 with _ | ⟨l0, ls⟩
      · have h2 := extractLines_fst_nil x' hf
        have e1 : extractLines (b :: x') = ([], b :: x') := by
          simp [extractLines, hb, hf, h2]
        rw [e1]
        simp
      · simp [extractLines, hb, hf, ih]

/-- Running the feed loop from any newline-free buffer equals one
framing pass over the concatenated bytes. -/
theorem framerRun_foldl (chunks : List (List Nat)) :
    ∀ lines buf, 10 ∉ buf →
      chunks.foldl framerStep (lines, buf) =
        (lines ++ ((extractLines (buf ++ chunks.flatten)).1).map decodedLine,
          (extractLines (buf ++ chunks.flatten)).2) := by
  induction chunks with
  | nil =>
    intro lines buf h
    simp [extractLines_of_no_newline buf h]
  | cons c rest ih =>
    intro lines buf h
    cases c with
    | nil =>
      simpa [framerStep] using ih lines buf h
    | cons c0 cs =>
      simp only [List.foldl_cons]
      have hstep : framerStep (lines, buf) (c0 :: cs) =
          (lines ++ ((extractLines (buf ++ c0 :: cs)).1).map decodedLine,
            (extractLines (buf ++ c0 :: cs)).2) := by
        simp [framerStep]
      rw [hstep, ih _ _ (extractLines_no_newline _)]
      rw [List.flatten_cons, show buf ++ (c0 :: cs ++ rest.flatten) =
        (buf ++ c0 :: cs) ++ rest.flatten from by simp,
        extractLines_append (buf ++ c0 :: cs) rest.flatten]
      simp

/-- The feed loop with decoding tracks the spans-only feed loop. -/
theorem framer_decodes_spans (chunks : List (List Nat)) :
    ∀ lines buf,
      chunks.foldl framerStep (lines.map decodedLine, buf) =
        (((chunks.foldl framerSpansStep (lines, buf)).1).map decodedLine,
          (chunks.foldl framerSpansStep (lines, buf)).2) := by
  induction chunks with
  | nil => intro lines buf; rfl
  | cons c rest ih =>
    intro lines buf
    cases c with
    | nil => simpa [framerStep, framerSpansStep] using ih lines buf
    | cons c0 cs =>
      simp only [List.foldl_cons]
      have hstep : framerStep (lines.map decodedLine, buf) (c0 :: cs) =
          ((lines ++ (extractLines (buf ++ c0 :: cs)).1).map decodedLine,
            (extractLines (buf ++ c0 :: cs)).2) := by
        simp [framerStep, List.map_append]
      have hspan : framerSpansStep (lines, buf) (c0 :: cs) =
          (lines ++ (extractLines (buf ++ c0 :: cs)).1,
            (extractLines (buf ++ c0 :: cs)).2) := by
        simp [framerSpansStep]
      rw [hstep, hspan]
      exact ih _ _


/-! ### Claim C4 and C7 theorems -/

/-- **C4.** For every byte sequence and every way of splitting it into
chunks fed successively to the Line Framer (including one byte at a time
and the whole sequence at once), the resulting sequence of decoded lines
(and the leftover buffer) is identical to the result of feeding all the
bytes as a single chunk. -/
theorem framer_chunk_size_invariance (chunks : List (List Nat)) :
    framerRun chunks = framerRun [chunks.flatten] := by
  have h1 := framerRun_foldl chunks [] [] (by simp)
  have h2 := framerRun_foldl [chunks.flatten] [] [] (by simp)
  simp only [framerRun] at *
  rw [h1, h2]
  simp

/-- **C7.** Every byte span extracted by the Line Framer produces exactly
one decoded line — the decoding framer tracks the spans-only framer
one-to-one, so no extracted span is ever dropped — and whenever primary
UTF-8 decoding fails on a span, the identical span is decoded by the
byte-preserving ISO-8859-1 fallback (total over all byte sequences: each
byte becomes the codepoint of the same value). -/
theorem decode_fallback_total :
    (∀ chunks : List (List Nat),
        (framerRun chunks).1 = ((framerSpans chunks).1).map decodedLine) ∧
    (∀ bs : List Nat, utf8Decode? bs = none → decodeSpan bs = bs.map Char.ofNat) := by
  constructor
  · intro chunks
    have h := framer_decodes_spans chunks [] []
    simp only [List.map_nil] at h
    simp only [framerRun, framerSpans]
    rw [h]
  · intro bs h
    simp [decodeSpan, h, latin1Decode]

/-- Witness for C7: the span `[0xFF]` (not valid UTF-8) is still decoded,
to the single Latin-1 codepoint `U+00FF`, and a stream containing it
loses no line. -/
theorem decode_fallback_total_witness :
    (framerRun [[255, 10]]).1 = ((framerSpans [[255, 10]]).1).map decodedLine ∧
      utf8Decode? [255] = none ∧ decodeSpan [255] = [255].map Char.ofNat :=
  ⟨decode_fallback_total.1 [[255, 10]], by decide,
    decode_fallback_total.2 [255] (by decide)⟩



/-! ### Shared evaluation lemmas -/

/-- A whole-number float literal evaluates to its integer value. -/
theorem pyFloat?_natLit (cs : List Char) (n : ℕ)
    (h : floatLit? (pyStrip cs) = some ⟨false, n, 0, 0, 0⟩) :
    pyFloat? cs = some n := by
  simp [pyFloat?, h, FloatRepr.val]

/-- Concrete classification of the line `1,2,3,4,5,6,25`. -/
theorem classify_sample_line :
    classifyLine "1,2,3,4,5,6,25".data =
      .sensor ⟨[1, 2, 3], [4, 5, 6], 25⟩ := by
  have hsp : splitOnChar ',' "1,2,3,4,5,6,25".data =
      ["1".data, "2".data, "3".data, "4".data, "5".data, "6".data, "25".data] := by decide
  have f1 : pyFloat? "1".data = some 1 := pyFloat?_natLit _ 1 (by decide)
  have f2 : pyFloat? "2".data = some 2 := pyFloat?_natLit _ 2 (by decide)
  have f3 : pyFloat? "3".data = some 3 := pyFloat?_natLit _ 3 (by decide)
  have f4 : pyFloat? "4".data = some 4 := pyFloat?_natLit _ 4 (by decide)
  have f5 : pyFloat? "5".data = some 5 := pyFloat?_natLit _ 5 (by decide)
  have f6 : pyFloat? "6".data = some 6 := pyFloat?_natLit _ 6 (by decide)
  have hti : pyInt? "25".data = some 25 := by decide
  have hsens : parseSensor7? "1,2,3,4,5,6,25".data =
      some ⟨[1, 2, 3], [4, 5, 6], 25⟩ := by
    simp [parseSensor7?, hsp, f1, f2, f3, f4, f5, f6, hti]
  have hq : (("Quaternion:".data).isPrefixOf "1,2,3,4,5,6,25".data) = false := by decide
  have hc : countChar ',' "1,2,3,4,5,6,25".data = 6 := by decide
  simp [classifyLine, hq, hc, hsens]

/-- A capture run over the single read `b"1,2,3,4,5,6,25\n"` returns one
record in both lists. -/
theorem captureEval_single_line :
    (capture_serial_data
        [Except.ok [49, 44, 50, 44, 51, 44, 52, 44, 53, 44, 54, 44, 50, 53, 10]]).result =
      .ok ⟨[⟨[1, 2, 3], [4, 5, 6], 25⟩], [⟨[1, 2, 3], [4, 5, 6], 25⟩], [], 0⟩ := by
  have hex : extractLines [49, 44, 50, 44, 51, 44, 52, 44, 53, 44, 54, 44, 50, 53, 10] =
      ([[49, 44, 50, 44, 51, 44, 52, 44, 53, 44, 54, 44, 50, 53]], []) := by decide
  have hdec : decodedLine [49, 44, 50, 44, 51, 44, 52, 44, 53, 44, 54, 44, 50, 53] =
      "1,2,3,4,5,6,25".data := by decide
  have hfeed : captureFeed initCaptureState
      [49, 44, 50, 44, 51, 44, 52, 44, 53, 44, 54, 44, 50, 53, 10] =
      ⟨[⟨[1, 2, 3], [4, 5, 6], 25⟩], [⟨[1, 2, 3], [4, 5, 6], 25⟩], [], 0, []⟩ := by
    have hcl : classifyLine ['1', ',', '2', ',', '3', ',', '4', ',', '5', ',', '6', ',', '2', '5'] =
        .sensor ⟨[1, 2, 3], [4, 5, 6], 25⟩ := classify_sample_line
    simp [captureFeed, hex, hdec, captureClassify, hcl, initCaptureState]
  simp [capture_serial_data, captureLoop, hfeed]

/-! ### Claim C9 -/

/-- **C9.** The 14-field batch processor unconditionally discards the
first row of its input before classification — the result depends only
on the remaining rows, even when the first row is a valid 14-field
record, which is silently lost — and on a zero-row input the discard
step itself raises an uncaught `StopIteration` (`Except.error ()`)
instead of returning an empty result. -/
theorem header_discarded_and_empty_input_raises :
    (∀ (calib : Calib) (h1 h2 : Row) (rows : List Row),
        process_imu_data calib (h1 :: rows) = .ok (rows.foldl (step14 calib) initProc14) ∧
        process_imu_data calib (h1 :: rows) = process_imu_data calib (h2 :: rows)) ∧
    (∀ calib : Calib, process_imu_data calib [] = .error ()) :=
  ⟨fun _ _ _ _ => ⟨rfl, rfl⟩, fun _ => rfl⟩

/-! ### Claim C2 -/

/-- **C2 counterexample.** A run of the 7-field batch processor whose only
line is invalid leaves every channel with zero samples; its `calc_stats`
then raises `ZeroDivisionError` (modelled `none`) instead of returning
zero statistics: the claim fails on `imu_data_process.py`. -/
theorem calc_stats7_zero_division_counterexample :
    imu_data_process_results defaultCalib ["x".data] = none ∧
      calc_stats7 [[], [], []] "g" = none := by
  constructor <;> decide

/-- **C2 (amended).** In the 14-field batch processor
(`process_imu.py`), whenever some channel has zero collected samples the
statistics computation returns mean 0 and standard deviation 0 for every
channel together with the unit label, raising no division error; the
7-field variant's unguarded `calc_stats` instead raises
`ZeroDivisionError` (see the counterexample). -/
theorem calc_stats14_zero_channel (data : List (List ℚ)) (unit : String)
    (ch : List ℚ) (hmem : ch ∈ data) (hempty : ch = []) :
    calc_stats14 data unit = ⟨[0, 0, 0], [0, 0, 0], unit⟩ := by
  have hfalse : data.all (fun ch => decide (0 < ch.length)) = false := by
    subst hempty
    simp only [List.all_eq_false]
    exact ⟨[], hmem, by simp⟩
  simp [calc_stats14, hfalse]

/-- Witness for C2: three empty channels produce the zero statistics with
their unit label. -/
theorem calc_stats14_zero_channel_witness :
    ([] : List ℚ) ∈ [([] : List ℚ), [], []] ∧
      calc_stats14 [[], [], []] "g" = ⟨[0, 0, 0], [0, 0, 0], "g"⟩ :=
  ⟨by simp, calc_stats14_zero_channel [[], [], []] "g" [] (by simp) rfl⟩

/-! ### Claim C8 -/

/-- **C8 (amended).** When the byte source signals a transport failure
the acquisition loop aborts immediately (later read events are never
processed), the `finally` block releases the serial port, and the
process terminates via `sys.exit(1)`: the data collected up to the
failure point is *discarded* with the process, not returned to a
caller. -/
theorem transport_failure_aborts (good : List (List Nat)) (rest : List ReadEvent) :
    capture_serial_data (good.map Except.ok ++ .error () :: rest) =
      ⟨.error 1, true⟩ := by
  suffices h : ∀ st, captureLoop st (good.map Except.ok ++ .error () :: rest) = .error () by
    simp [capture_serial_data, h]
  induction good with
  | nil => intro st; rfl
  | cons g gs ih =>
    intro st
    simpa [captureLoop] using ih (captureFeed st g)

/-- **C8 counterexample.** After the read `b"1,2,3,4,5,6,25\n"` one
record has been collected (second conjunct); if the next read raises
`SerialException`, the run terminates with exit status 1 and returns
*nothing* — the collected record is not handed back to the caller,
contradicting the claim that partial data is retained and returned. -/
theorem transport_failure_discards_data_counterexample :
    capture_serial_data
        [Except.ok [49, 44, 50, 44, 51, 44, 52, 44, 53, 44, 54, 44, 50, 53, 10],
          Except.error ()] =
      ⟨Except.error 1, true⟩ ∧
    (capture_serial_data
        [Except.ok [49, 44, 50, 44, 51, 44, 52, 44, 53, 44, 54, 44, 50, 53, 10]]).result =
      .ok ⟨[⟨[1, 2, 3], [4, 5, 6], 25⟩], [⟨[1, 2, 3], [4, 5, 6], 25⟩], [], 0⟩ :=
  ⟨by decide, captureEval_single_line⟩

/-! ### Claim C10 -/

/-- **C10.** In every live capture run of the quaternion-capable variant
that returns, the filtered-data list equals the raw-data list
element-for-element: each parsed 7-field record is appended verbatim to
both lists. -/
theorem filtered_equals_raw :
    ∀ (reads : List ReadEvent) (v : CaptureReturn),
      (capture_serial_data reads).result = .ok v → v.filtered_data = v.raw_data := by
  have hclassify : ∀ (st : CaptureState) (line : List Char),
      st.filtered = st.raw → (captureClassify st line).filtered = (captureClassify st line).raw := by
    intro st line hst
    unfold captureClassify
    cases classifyLine line <;> simp [hst]
  have hfold : ∀ (lines : List (List Char)) (st : CaptureState),
      st.filtered = st.raw →
      (lines.foldl captureClassify st).filtered = (lines.foldl captureClassify st).raw := by
    intro lines
    induction lines with
    | nil => intro st hst; exact hst
    | cons l ls ih => intro st hst; exact ih _ (hclassify st l hst)
  have hfeed : ∀ (st : CaptureState) (chunk : List Nat),
      st.filtered = st.raw → (captureFeed st chunk).filtered = (captureFeed st chunk).raw := by
    intro st chunk hst
    unfold captureFeed
    split
    · exact hst
    · exact hfold _ _ hst
  have hloop : ∀ (reads : List ReadEvent) (st st' : CaptureState),
      st.filtered = st.raw → captureLoop st reads = .ok st' → st'.filtered = st'.raw := by
    intro reads
    induction reads with
    | nil => intro st st' hst h; cases h; exact hst
    | cons r rs ih =>
      intro st st' hst h
      match r, h with
      | .ok bytes, h => exact ih _ _ (hfeed st bytes hst) h
  intro reads v h
  unfold capture_serial_data at h
  split at h
  · next st heq =>
    cases h
    exact hloop reads initCaptureState st rfl heq
  · cases h

/-- Witness for C10: the single-line run returns, and its filtered list
equals its raw list. -/
theorem filtered_equals_raw_witness :
    (capture_serial_data
        [Except.ok [49, 44, 50, 44, 51, 44, 52, 44, 53, 44, 54, 44, 50, 53, 10]]).result =
      .ok ⟨[⟨[1, 2, 3], [4, 5, 6], 25⟩], [⟨[1, 2, 3], [4, 5, 6], 25⟩], [], 0⟩ ∧
    ([⟨[1, 2, 3], [4, 5, 6], 25⟩] : List Sensor7) = [⟨[1, 2, 3], [4, 5, 6], 25⟩] :=
  ⟨captureEval_single_line,
    filtered_equals_raw _ _ captureEval_single_line⟩


/-! ### Claim C3 -/

/-- **C3.** For every calibration profile and record, calibrated
accelerometer component `i` equals `(raw[i] - accel_bias[i]) *
accel_scale[i]` and calibrated gyroscope component `i` equals
`raw[i] - gyro_bias[i]` with no scale factor (in both batch variants);
and with `accel_bias [1,0,0]`, `accel_scale [2,1,1]`, `gyro_bias
[0,0,0]` and raw record `(3,0,0,1,1,1,25)`, the processed output is
accel `(4,0,0)`, gyro `(1,1,1)`, temp `25`. -/
theorem calibration_formulas :
    (∀ (calib : Calib) (parts : List ℚ) (i : ℕ), i < 3 →
        (calibAccel calib parts).getD i 0 =
            (parts.getD i 0 - calib.accel_bias.getD i 0) * calib.accel_scale.getD i 0 ∧
          (calibGyro7 calib parts).getD i 0 = parts.getD (i + 3) 0 - calib.gyro_bias.getD i 0 ∧
          (calibGyro calib parts).getD i 0 = parts.getD i 0 - calib.gyro_bias.getD i 0) ∧
    ((imu_data_process ⟨[1, 0, 0], [2, 1, 1], [0, 0, 0]⟩ ["3,0,0,1,1,1,25".data]).accel =
        [[4], [0], [0]] ∧
      (imu_data_process ⟨[1, 0, 0], [2, 1, 1], [0, 0, 0]⟩ ["3,0,0,1,1,1,25".data]).gyro =
        [[1], [1], [1]] ∧
      (imu_data_process ⟨[1, 0, 0], [2, 1, 1], [0, 0, 0]⟩ ["3,0,0,1,1,1,25".data]).temperature =
        [25]) := by
  have hrange : List.range 3 = [0, 1, 2] := rfl
  constructor
  · intro calib parts i hi
    interval_cases i <;>
      simp [calibAccel, calibGyro, calibGyro7, hrange]
  · have f3 : pyFloat? "3".data = some 3 := pyFloat?_natLit _ 3 (by decide)
    have f0 : pyFloat? "0".data = some 0 := pyFloat?_natLit _ 0 (by decide)
    have f1 : pyFloat? "1".data = some 1 := pyFloat?_natLit _ 1 (by decide)
    have f25 : pyFloat? "25".data = some 25 := pyFloat?_natLit _ 25 (by decide)
    have hsp : splitOnChar ',' (pyStrip "3,0,0,1,1,1,25".data) =
        ["3".data, "0".data, "0".data, "1".data, "1".data, "1".data, "25".data] := by decide
    have hp : parse7? "3,0,0,1,1,1,25".data = some [3, 0, 0, 1, 1, 1, 25] := by
      simp [parse7?, hsp, f3, f0, f1, f25]
    have he : (["3,0,0,1,1,1,25".data]).enum = [(0, "3,0,0,1,1,1,25".data)] := by decide
    refine ⟨?_, ?_, ?_⟩ <;>
      · simp [imu_data_process, he, step7, hp, initProc7, appendEach, calibAccel,
          calibGyro7, hrange]
        try norm_num

/-- Witness for C3: the claim's concrete instance, channel 0. -/
theorem calibration_formulas_witness :
    (0 : ℕ) < 3 ∧
      ((calibAccel ⟨[1, 0, 0], [2, 1, 1], [0, 0, 0]⟩ [3, 0, 0, 1, 1, 1, 25]).getD 0 0 =
          (([3, 0, 0, 1, 1, 1, 25] : List ℚ).getD 0 0 - ([1, 0, 0] : List ℚ).getD 0 0) *
            ([2, 1, 1] : List ℚ).getD 0 0 ∧
        (calibGyro7 ⟨[1, 0, 0], [2, 1, 1], [0, 0, 0]⟩ [3, 0, 0, 1, 1, 1, 25]).getD 0 0 =
          ([3, 0, 0, 1, 1, 1, 25] : List ℚ).getD 3 0 - ([0, 0, 0] : List ℚ).getD 0 0 ∧
        (calibGyro ⟨[1, 0, 0], [2, 1, 1], [0, 0, 0]⟩ [3, 0, 0, 1, 1, 1, 25]).getD 0 0 =
          ([3, 0, 0, 1, 1, 1, 25] : List ℚ).getD 0 0 - ([0, 0, 0] : List ℚ).getD 0 0) :=
  ⟨by norm_num,
    calibration_formulas.1 ⟨[1, 0, 0], [2, 1, 1], [0, 0, 0]⟩ [3, 0, 0, 1, 1, 1, 25] 0
      (by norm_num)⟩


/-! ### Claim C1 -/

/-- A row that fails the column-count check or the field conversion
leaves the 14-field processor's state unchanged. -/
theorem step14_invalid (calib : Calib) (st : Proc14State) (parts : Row)
    (h : ¬(parts.length = 14 ∧ (parseRow14? parts).isSome)) :
    step14 calib st parts = st := by
  unfold step14
  by_cases hl : parts.length = 14
  · rcases hp : parseRow14? parts with _ | r
    · simp [hl, hp]
    · exact absurd ⟨hl, by simp [hp]⟩ h
  · simp [hl]

/-- Fold invariant: the 14-field processor's timestamps are always
`[0, 0.005, ...]` indexed by the valid-sample counter. -/
theorem foldl14_timestamps (calib : Calib) (rows : List Row) :
    ∀ st : Proc14State,
      st.time_stamps = (List.range st.valid_line_count).map (fun n => (n : ℚ) * (5 / 1000)) →
      (rows.foldl (step14 calib) st).time_stamps =
        (List.range (rows.foldl (step14 calib) st).valid_line_count).map
          (fun n => (n : ℚ) * (5 / 1000)) := by
  induction rows with
  | nil => intro st h; exact h
  | cons r rs ih =>
    intro st h
    apply ih
    unfold step14
    by_cases hl : r.length = 14
    · rcases hp : parseRow14? r with _ | rec
      · simp [hl, hp, h]
      · simp only [hl, hp]
        simp [h, List.range_succ]
    · simp [hl, h]

/-- The 7-field processor's timestamps are the *raw* enumerate indices of
the valid lines, times `0.005`. -/
theorem foldl7_timestamps (calib : Calib) :
    ∀ (lines : List (List Char)) (k : ℕ) (st : Proc7State),
      ((List.enumFrom k lines).foldl (step7 calib) st).time_stamps =
        st.time_stamps ++
          ((List.enumFrom k lines).filter fun p => (parse7? p.2).isSome).map
            (fun p => (p.1 : ℚ) * (5 / 1000)) := by
  intro lines
  induction lines with
  | nil => intro k st; simp [List.enumFrom]
  | cons l ls ih =>
    intro k st
    simp only [List.enumFrom, List.foldl_cons, List.filter_cons]
    rcases hp : parse7? l with _ | parts
    · simp [step7, hp, ih (k + 1) st]
    · simp [step7, hp, ih (k + 1)]

/-- **C1 counterexample.** In the 7-field batch processor, inserting one
invalid line between two valid lines *does* change the second valid
record's timestamp (from `0.005` to `0.010`): the timestamp uses the raw
line number, not a valid-sample counter. -/
theorem timestamps_shift_counterexample :
    (imu_data_process defaultCalib
        ["1,2,3,4,5,6,25".data, "x".data, "1,2,3,4,5,6,25".data]).time_stamps =
      [0, 1 / 100] ∧
    (imu_data_process defaultCalib
        ["1,2,3,4,5,6,25".data, "1,2,3,4,5,6,25".data]).time_stamps =
      [0, 1 / 200] ∧
    ((1 : ℚ) / 100 ≠ 1 / 200) := by
  have hsp : splitOnChar ',' (pyStrip "1,2,3,4,5,6,25".data) =
      ["1".data, "2".data, "3".data, "4".data, "5".data, "6".data, "25".data] := by decide
  have f1 : pyFloat? "1".data = some 1 := pyFloat?_natLit _ 1 (by decide)
  have f2 : pyFloat? "2".data = some 2 := pyFloat?_natLit _ 2 (by decide)
  have f3 : pyFloat? "3".data = some 3 := pyFloat?_natLit _ 3 (by decide)
  have f4 : pyFloat? "4".data = some 4 := pyFloat?_natLit _ 4 (by decide)
  have f5 : pyFloat? "5".data = some 5 := pyFloat?_natLit _ 5 (by decide)
  have f6 : pyFloat? "6".data = some 6 := pyFloat?_natLit _ 6 (by decide)
  have f25 : pyFloat? "25".data = some 25 := pyFloat?_natLit _ 25 (by decide)
  have hp : parse7? "1,2,3,4,5,6,25".data = some [1, 2, 3, 4, 5, 6, 25] := by
    simp [parse7?, hsp, f1, f2, f3, f4, f5, f6, f25]
  have hx : parse7? "x".data = none := by decide
  have he3 : (["1,2,3,4,5,6,25".data, "x".data, "1,2,3,4,5,6,25".data]).enum =
      [(0, "1,2,3,4,5,6,25".data), (1, "x".data), (2, "1,2,3,4,5,6,25".data)] := by decide
  have he2 : (["1,2,3,4,5,6,25".data, "1,2,3,4,5,6,25".data]).enum =
      [(0, "1,2,3,4,5,6,25".data), (1, "1,2,3,4,5,6,25".data)] := by decide
  refine ⟨?_, ?_, by norm_num⟩
  · simp [imu_data_process, he3, step7, hp, hx, initProc7]
    norm_num
  · simp [imu_data_process, he2, step7, hp, initProc7]
    norm_num

/-- **C1 (amended).** In the 14-field batch processor the n-th
successfully parsed record receives timestamp `n * 0.005` counting only
valid records (the timestamp list is exactly `range(valid_line_count)`
scaled), and inserting an invalid row anywhere leaves the entire
processing state — hence every timestamp — unchanged.  The 7-field
batch processor instead stamps each valid line with its *raw* line
number times `0.005`, so an inserted invalid line shifts every later
timestamp (see the counterexample). -/
theorem timestamps_count_valid_samples :
    (∀ (calib : Calib) (rows : List Row),
        (rows.foldl (step14 calib) initProc14).time_stamps =
          (List.range (rows.foldl (step14 calib) initProc14).valid_line_count).map
            (fun n => (n : ℚ) * (5 / 1000))) ∧
    (∀ (calib : Calib) (pre post : List Row) (bad : Row),
        ¬(bad.length = 14 ∧ (parseRow14? bad).isSome) →
        (pre ++ bad :: post).foldl (step14 calib) initProc14 =
          (pre ++ post).foldl (step14 calib) initProc14) ∧
    (∀ (calib : Calib) (lines : List (List Char)),
        (imu_data_process calib lines).time_stamps =
          (lines.enum.filter fun p => (parse7? p.2).isSome).map
            (fun p => (p.1 : ℚ) * (5 / 1000))) := by
  refine ⟨?_, ?_, ?_⟩
  · intro calib rows
    exact foldl14_timestamps calib rows initProc14 (by simp [initProc14])
  · intro calib pre post bad h
    rw [List.foldl_append, List.foldl_cons, step14_invalid calib _ bad h,
      ← List.foldl_append]
  · intro calib lines
    have h := foldl7_timestamps calib lines 0 initProc7
    simpa [imu_data_process, List.enum, initProc7] using h

/-- Witness for C1: an empty row is invalid for the 14-field processor,
and inserting it changes nothing. -/
theorem timestamps_count_valid_samples_witness :
    ¬((([] : Row)).length = 14 ∧ (parseRow14? ([] : Row)).isSome) ∧
      ([([] : Row)].foldl (step14 defaultCalib) initProc14 =
        ([] : List Row).foldl (step14 defaultCalib) initProc14) :=
  ⟨by decide,
    timestamps_count_valid_samples.2.1 defaultCalib [] [] [] (by decide)⟩


/-! ### Claim C6 -/

/-- A split on a separator has one more part than there are separator
occurrences. -/
theorem splitOnChar_length (sep : Char) (l : List Char) :
    (splitOnChar sep l).length = countChar sep l + 1 := by
  induction l with
  | nil => rfl
  | cons c rest ih =>
    by_cases hc : c = sep
    · subst hc
      simp [splitOnChar, countChar, List.filter_cons] at ih ⊢
      omega
    · rcases hr : splitOnChar sep rest with _ | ⟨f, t⟩
      · rw [hr] at ih
        simp at ih
      · rw [hr] at ih
        simp [splitOnChar, hc, hr, countChar, List.filter_cons] at ih ⊢
        omega

/-- On a line with exactly 7 comma-separated fields, the live-capture
7-field parse coincides with the spec's description. -/
theorem parseSensor7?_eq_specParse7 (line : List Char)
    (h : (splitOnChar ',' line).length = 7) :
    parseSensor7? line = specParse7 line := by
  rcases hs : splitOnChar ',' line with
    _ | ⟨p0, _ | ⟨p1, _ | ⟨p2, _ | ⟨p3, _ | ⟨p4, _ | ⟨p5, _ | ⟨p6, _ | ⟨p7, t⟩⟩⟩⟩⟩⟩⟩⟩ <;>
    rw [hs] at h <;> simp at h
  simp [parseSensor7?, specParse7, hs]


/-- **C6 counterexample.** The 7-field batch processor (also cited by the
claim) parses *all seven* fields with `float`, so the line
`1,2,3,4,5,6,25.5` — whose temperature field is numeric but not an
integer — is accepted rather than classified Invalid, and its run stores
temperature `25.5`.  Moreover a line starting with `Quaternion:` that
has exactly 6 commas is dispatched to the quaternion branch, not parsed
as a 7-field record. -/
theorem six_comma_integer_temp_counterexample :
    parse7? "1,2,3,4,5,6,25.5".data = some [1, 2, 3, 4, 5, 6, 51 / 2] ∧
    (imu_data_process defaultCalib ["1,2,3,4,5,6,25.5".data]).temperature = [51 / 2] ∧
    classifyLine "Quaternion: w=1, x=2, y=3, z=4, a=5, b=6, c=7".data =
      CapRecord.quat 1 2 3 4 := by
  have f1 : pyFloat? "1".data = some 1 := pyFloat?_natLit _ 1 (by decide)
  have f2 : pyFloat? "2".data = some 2 := pyFloat?_natLit _ 2 (by decide)
  have f3 : pyFloat? "3".data = some 3 := pyFloat?_natLit _ 3 (by decide)
  have f4 : pyFloat? "4".data = some 4 := pyFloat?_natLit _ 4 (by decide)
  have f5 : pyFloat? "5".data = some 5 := pyFloat?_natLit _ 5 (by decide)
  have f6 : pyFloat? "6".data = some 6 := pyFloat?_natLit _ 6 (by decide)
  have f255 : pyFloat? "25.5".data = some (51 / 2) := by
    have hf : floatLit? (pyStrip "25.5".data) = some ⟨false, 25, 5, 1, 0⟩ := by decide
    simp [pyFloat?, hf, FloatRepr.val]
    norm_num
  have hsp : splitOnChar ',' (pyStrip "1,2,3,4,5,6,25.5".data) =
      ["1".data, "2".data, "3".data, "4".data, "5".data, "6".data, "25.5".data] := by decide
  have hp : parse7? "1,2,3,4,5,6,25.5".data = some [1, 2, 3, 4, 5, 6, 51 / 2] := by
    simp [parse7?, hsp, f1, f2, f3, f4, f5, f6, f255]
  refine ⟨hp, ?_, ?_⟩
  · have he : (["1,2,3,4,5,6,25.5".data]).enum = [(0, "1,2,3,4,5,6,25.5".data)] := by decide
    simp [imu_data_process, he, step7, hp, initProc7]
  · have hpre : (("Quaternion:".data).isPrefixOf
        "Quaternion: w=1, x=2, y=3, z=4, a=5, b=6, c=7".data) = true := by decide
    have hparts : splitCommaSpace (removeQuatMarker
        "Quaternion: w=1, x=2, y=3, z=4, a=5, b=6, c=7".data) =
        ["w=1".data, "x=2".data, "y=3".data, "z=4".data, "a=5".data, "b=6".data,
          "c=7".data] := by decide
    have e0 : eqField? "w=1".data = some 1 := by
      simp [eqField?, show splitOnChar '=' "w=1".data = ["w".data, "1".data] from by decide, f1]
    have e1 : eqField? "x=2".data = some 2 := by
      simp [eqField?, show splitOnChar '=' "x=2".data = ["x".data, "2".data] from by decide, f2]
    have e2 : eqField? "y=3".data = some 3 := by
      simp [eqField?, show splitOnChar '=' "y=3".data = ["y".data, "3".data] from by decide, f3]
    have e3 : eqField? "z=4".data = some 4 := by
      simp [eqField?, show splitOnChar '=' "z=4".data = ["z".data, "4".data] from by decide, f4]
    have hquat : parseQuat? "Quaternion: w=1, x=2, y=3, z=4, a=5, b=6, c=7".data =
        some (1, 2, 3, 4) := by
      simp [parseQuat?, hparts, e0, e1, e2, e3]
    simp [classifyLine, hpre, hquat]

/-- **C6 (amended).** In the live-capture classifier, every line that
does *not* start with the `Quaternion:` marker and has exactly 6 commas
is parsed exactly as the spec describes — fields 0–5 as floats, field 6
as an integer temperature (`specParse7`) — and in particular the 7-field
line with temperature `25.5` is classified Invalid there.  (The 7-field
batch processor parses all fields as floats and accepts `25.5`; see the
counterexample.) -/
theorem classifier_six_commas :
    (∀ line : List Char,
        ("Quaternion:".data).isPrefixOf line = false →
        countChar ',' line = 6 →
        classifyLine line =
          match specParse7 line with
          | some r => CapRecord.sensor r
          | none => CapRecord.invalid) ∧
    classifyLine "1,2,3,4,5,6,25.5".data = CapRecord.invalid := by
  constructor
  · intro line hq hc
    have hlen : (splitOnChar ',' line).length = 7 := by
      rw [splitOnChar_length]
      omega
    rw [classifyLine, hq]
    simp only [Bool.false_eq_true, if_false, hc, if_pos rfl,
      parseSensor7?_eq_specParse7 line hlen, if_true]
  · have hq : (("Quaternion:".data).isPrefixOf "1,2,3,4,5,6,25.5".data) = false := by decide
    have hc : countChar ',' "1,2,3,4,5,6,25.5".data = 6 := by decide
    have f1 : pyFloat? "1".data = some 1 := pyFloat?_natLit _ 1 (by decide)
    have f2 : pyFloat? "2".data = some 2 := pyFloat?_natLit _ 2 (by decide)
    have f3 : pyFloat? "3".data = some 3 := pyFloat?_natLit _ 3 (by decide)
    have f4 : pyFloat? "4".data = some 4 := pyFloat?_natLit _ 4 (by decide)
    have f5 : pyFloat? "5".data = some 5 := pyFloat?_natLit _ 5 (by decide)
    have f6 : pyFloat? "6".data = some 6 := pyFloat?_natLit _ 6 (by decide)
    have hti : pyInt? "25.5".data = none := by decide
    have hsp : splitOnChar ',' "1,2,3,4,5,6,25.5".data =
        ["1".data, "2".data, "3".data, "4".data, "5".data, "6".data, "25.5".data] := by decide
    have hsens : parseSensor7? "1,2,3,4,5,6,25.5".data = none := by
      simp [parseSensor7?, hsp, f1, f2, f3, f4, f5, f6, hti]
    simp [classifyLine, hq, hc, hsens]

/-- Witness for C6: the line `1,2,3,4,5,6,25` is a non-quaternion line
with 6 commas, and the classifier treats it exactly as `specParse7`
does. -/
theorem classifier_six_commas_witness :
    ("Quaternion:".data).isPrefixOf "1,2,3,4,5,6,25".data = false ∧
      countChar ',' "1,2,3,4,5,6,25".data = 6 ∧
      classifyLine "1,2,3,4,5,6,25".data =
        (match specParse7 "1,2,3,4,5,6,25".data with
          | some r => CapRecord.sensor r
          | none => CapRecord.invalid) :=
  ⟨by decide, by decide,
    classifier_six_commas.1 "1,2,3,4,5,6,25".data (by decide) (by decide)⟩


/-! ### Claim C5 -/

theorem lookupW_dictAppend (ws : List (ℤ × List ℚ)) (k k' : ℤ) (v : ℚ) :
    lookupW k (dictAppend ws k' v) =
      if k' = k then some ((lookupW k ws).getD [] ++ [v]) else lookupW k ws := by
  induction ws with
  | nil => by_cases h : k' = k <;> simp [dictAppend, lookupW, h]
  | cons p rest ih =>
    obtain ⟨k0, vs⟩ := p
    by_cases h0 : k0 = k'
    · subst h0
      by_cases h : k0 = k
      · subst h
        simp [dictAppend, lookupW]
      · simp [dictAppend, lookupW, h]
    · by_cases h : k' = k
      · subst h
        have hk0 : ¬k0 = k' := h0
        simp [dictAppend, lookupW, h0, hk0, ih]
      · by_cases hk0 : k0 = k
        · subst hk0
          simp [dictAppend, lookupW, h0, h, ih]
        · simp [dictAppend, lookupW, h0, h, hk0, ih]

theorem keys_dictAppend (ws : List (ℤ × List ℚ)) (k : ℤ) (v : ℚ) :
    (dictAppend ws k v).map Prod.fst =
      if k ∈ ws.map Prod.fst then ws.map Prod.fst else ws.map Prod.fst ++ [k] := by
  induction ws with
  | nil => simp [dictAppend]
  | cons p rest ih =>
    obtain ⟨k0, vs⟩ := p
    by_cases h0 : k0 = k
    · subst h0
      simp [dictAppend]
    · have h0s : ¬k = k0 := fun h => h0 h.symm
      by_cases hm : k ∈ rest.map Prod.fst
      · simp [dictAppend, h0, h0s, hm, ih]
      · simp [dictAppend, h0, h0s, hm, ih]

theorem mem_keys_dictAppend (ws : List (ℤ × List ℚ)) (k k' : ℤ) (v : ℚ) :
    k ∈ (dictAppend ws k' v).map Prod.fst ↔ k ∈ ws.map Prod.fst ∨ k = k' := by
  rw [keys_dictAppend]
  by_cases hm : k' ∈ ws.map Prod.fst
  · simp only [hm, if_true]
    constructor
    · exact Or.inl
    · rintro (h | rfl)
      · exact h
      · exact hm
  · simp [hm, List.mem_append]

theorem nodup_keys_dictAppend (ws : List (ℤ × List ℚ)) (k : ℤ) (v : ℚ)
    (h : (ws.map Prod.fst).Nodup) : ((dictAppend ws k v).map Prod.fst).Nodup := by
  rw [keys_dictAppend]
  by_cases hm : k ∈ ws.map Prod.fst
  · simp [hm, h]
  · simp [List.nodup_append, hm, h]


/-- What the final dict holds at key `k`: the arrival-ordered
temperatures of the samples whose window index is `k`. -/
theorem buildW_lookup :
    ∀ (samples : List (ℚ × ℚ)) (ws : List (ℤ × List ℚ)) (k : ℤ),
      lookupW k (samples.foldl (fun ws s => dictAppend ws (pyTruncInt (s.1 * 10)) s.2) ws) =
        match lookupW k ws with
        | some vs =>
          some (vs ++ (samples.filter fun s => decide (pyTruncInt (s.1 * 10) = k)).map Prod.snd)
        | none =>
          if ((samples.filter fun s => decide (pyTruncInt (s.1 * 10) = k)).map Prod.snd) = []
          then none
          else some ((samples.filter fun s => decide (pyTruncInt (s.1 * 10) = k)).map Prod.snd) := by
  intro samples
  induction samples with
  | nil =>
    intro ws k
    rcases hl : lookupW k ws with _ | vs <;> simp [hl]
  | cons s rest ih =>
    intro ws k
    simp only [List.foldl_cons]
    rw [ih, lookupW_dictAppend]
    by_cases hk : pyTruncInt (s.1 * 10) = k
    · rcases hl : lookupW k ws with _ | vs <;>
        simp [hk, hl, List.filter_cons]
    · have hfil : (List.filter (fun s => decide (pyTruncInt (s.1 * 10) = k)) (s :: rest)) =
          List.filter (fun s => decide (pyTruncInt (s.1 * 10) = k)) rest := by
        simp [List.filter_cons, hk]
      rw [if_neg hk, hfil]

/-- The fold preserves key uniqueness. -/
theorem buildW_nodup :
    ∀ (samples : List (ℚ × ℚ)) (ws : List (ℤ × List ℚ)),
      (ws.map Prod.fst).Nodup →
      ((samples.foldl (fun ws s => dictAppend ws (pyTruncInt (s.1 * 10)) s.2) ws).map
          Prod.fst).Nodup := by
  intro samples
  induction samples with
  | nil => intro ws h; exact h
  | cons s rest ih => intro ws h; exact ih _ (nodup_keys_dictAppend _ _ _ h)

/-- The final dict's keys are exactly the occurring window indices. -/
theorem buildW_mem :
    ∀ (samples : List (ℚ × ℚ)) (ws : List (ℤ × List ℚ)) (k : ℤ),
      (k ∈ (samples.foldl (fun ws s => dictAppend ws (pyTruncInt (s.1 * 10)) s.2) ws).map
          Prod.fst ↔
        k ∈ ws.map Prod.fst ∨ k ∈ samples.map fun s => pyTruncInt (s.1 * 10)) := by
  intro samples
  induction samples with
  | nil => intro ws k; simp
  | cons s rest ih =>
    intro ws k
    simp only [List.foldl_cons, List.map_cons, List.mem_cons]
    rw [ih, mem_keys_dictAppend]
    tauto

theorem filterMap_congr_map {α β : Type} (l : List α) (f : α → Option β) (g : α → β)
    (h : ∀ x ∈ l, f x = some (g x)) : l.filterMap f = l.map g := by
  induction l with
  | nil => rfl
  | cons a t ih =>
    rw [List.filterMap_cons, h a (List.mem_cons_self a t),
      ih (fun x hx => h x (List.mem_cons_of_mem _ hx)), List.map_cons]

/-- The emitted points of the aggregation pipeline equal the spec-side
description: one averaged point per non-empty bucket, ascending index
order, centre times, arrival-ordered averages, no points for empty
windows. -/
theorem windowPoints_spec_aux (samples : List (ℚ × ℚ)) :
    windowPoints (buildWindows samples) = specWindowPoints samples := by
  have hnodup : ((buildWindows samples).map Prod.fst).Nodup :=
    buildW_nodup samples [] (by simp)
  have hmem : ∀ k, k ∈ (buildWindows samples).map Prod.fst ↔
      k ∈ samples.map fun s => pyTruncInt (s.1 * 10) := by
    intro k
    have h := buildW_mem samples [] k
    simpa [buildWindows] using h
  have hlook : ∀ k, lookupW k (buildWindows samples) =
      if ((samples.filter fun s => decide (pyTruncInt (s.1 * 10) = k)).map Prod.snd) = []
      then none
      else some ((samples.filter fun s => decide (pyTruncInt (s.1 * 10) = k)).map Prod.snd) := by
    intro k
    exact buildW_lookup samples [] k
  have hperm : List.Perm ((buildWindows samples).map Prod.fst)
      ((samples.map fun s => pyTruncInt (s.1 * 10)).dedup) := by
    apply List.perm_of_nodup_nodup_toFinset_eq hnodup
      ((samples.map fun s => pyTruncInt (s.1 * 10)).nodup_dedup)
    apply Finset.ext
    intro a
    simp only [List.mem_toFinset, List.mem_dedup]
    exact hmem a
  have hsort : ((buildWindows samples).map Prod.fst).insertionSort (· ≤ ·) =
      ((samples.map fun s => pyTruncInt (s.1 * 10)).dedup).insertionSort (· ≤ ·) := by
    refine List.eq_of_perm_of_sorted ?_ (List.sorted_insertionSort _ _)
      (List.sorted_insertionSort _ _)
    exact (List.perm_insertionSort _ _).trans
      (hperm.trans (List.perm_insertionSort _ _).symm)
  simp only [windowPoints, specWindowPoints, hsort]
  apply filterMap_congr_map
  intro k hk
  have hkmem : k ∈ samples.map fun s => pyTruncInt (s.1 * 10) :=
    List.mem_dedup.mp ((List.perm_insertionSort _ _).mem_iff.mp hk)
  have hne : ((samples.filter fun s => decide (pyTruncInt (s.1 * 10) = k)).map Prod.snd) ≠
      [] := by
    obtain ⟨s, hs, hks⟩ := List.mem_map.mp hkmem
    intro hall
    rw [List.map_eq_nil_iff] at hall
    rw [List.filter_eq_nil_iff] at hall
    exact hall s hs (by simp [hks])
  rw [hlook k]
  simp [hne, List.isEmpty_iff]


theorem buildWindows_append (l : List (ℚ × ℚ)) (s : ℚ × ℚ) :
    buildWindows (l ++ [s]) = dictAppend (buildWindows l) (pyTruncInt (s.1 * 10)) s.2 := by
  simp [buildWindows, List.foldl_append]

/-- Fold invariant for the 14-field processor: `temp_windows` is the
aggregation of the `(timestamp, raw temperature)` pairs in arrival
order. -/
theorem fold14_windows (calib : Calib) (rows : List Row) :
    ∀ st : Proc14State,
      st.time_stamps.length = st.temperature.length →
      st.temp_windows =
        buildWindows (st.time_stamps.zip (st.temperature.map fun (z : ℤ) => (z : ℚ))) →
      (rows.foldl (step14 calib) st).time_stamps.length =
          (rows.foldl (step14 calib) st).temperature.length ∧
        (rows.foldl (step14 calib) st).temp_windows =
          buildWindows ((rows.foldl (step14 calib) st).time_stamps.zip
            ((rows.foldl (step14 calib) st).temperature.map fun (z : ℤ) => (z : ℚ))) := by
  induction rows with
  | nil => intro st h1 h2; exact ⟨h1, h2⟩
  | cons r rs ih =>
    intro st h1 h2
    apply ih
    · unfold step14
      by_cases hl : r.length = 14
      · rcases hp : parseRow14? r with _ | rec
        · simp [hl, hp, h1]
        · simp [hl, hp, h1]
      · simp [hl, h1]
    · unfold step14
      by_cases hl : r.length = 14
      · rcases hp : parseRow14? r with _ | rec
        · simp [hl, hp, h2]
        · simp only [hl, hp]
          simp only [ne_eq, not_true_eq_false, if_false]
          rw [h2, List.map_append, List.zip_append (by simpa using h1)]
          simp [buildWindows_append]
      · simp [hl, h2]

/-- Fold invariant for the 7-field processor. -/
theorem fold7_windows (calib : Calib) (ps : List (ℕ × List Char)) :
    ∀ st : Proc7State,
      st.time_stamps.length = st.temperature.length →
      st.temp_windows = buildWindows (st.time_stamps.zip st.temperature) →
      (ps.foldl (step7 calib) st).time_stamps.length =
          (ps.foldl (step7 calib) st).temperature.length ∧
        (ps.foldl (step7 calib) st).temp_windows =
          buildWindows ((ps.foldl (step7 calib) st).time_stamps.zip
            (ps.foldl (step7 calib) st).temperature) := by
  induction ps with
  | nil => intro st h1 h2; exact ⟨h1, h2⟩
  | cons p rest ih =>
    intro st h1 h2
    apply ih
    · unfold step7
      rcases hp : parse7? p.2 with _ | parts
      · simp [hp, h1]
      · simp [hp, h1]
    · unfold step7
      rcases hp : parse7? p.2 with _ | parts
      · simp [hp, h2]
      · simp only [hp]
        rw [h2, List.zip_append (by simpa using h1)]
        simp [buildWindows_append]

/-- **C5.** For every run, each sample's raw temperature is appended (in
arrival order) to the bucket with index `floor(timestamp * 10)` — both
processors' `temp_windows` equal `buildWindows` of their
`(timestamp, temperature)` stream — and after the stream ends the
emitted points are exactly one averaged point per non-empty bucket,
buckets visited in ascending index order, each reported at centre time
`window_index*0.1 + 0.05`, with empty windows producing no output point
(`windowPoints` of the built dict equals the spec description
`specWindowPoints`). -/
theorem window_aggregation_matches_spec :
    (∀ samples : List (ℚ × ℚ),
        windowPoints (buildWindows samples) = specWindowPoints samples) ∧
    (∀ (calib : Calib) (rows : List Row),
        (rows.foldl (step14 calib) initProc14).temp_windows =
          buildWindows ((rows.foldl (step14 calib) initProc14).time_stamps.zip
            ((rows.foldl (step14 calib) initProc14).temperature.map fun (z : ℤ) => (z : ℚ)))) ∧
    (∀ (calib : Calib) (lines : List (List Char)),
        (imu_data_process calib lines).temp_windows =
          buildWindows ((imu_data_process calib lines).time_stamps.zip
            (imu_data_process calib lines).temperature)) := by
  refine ⟨windowPoints_spec_aux, ?_, ?_⟩
  · intro calib rows
    exact (fold14_windows calib rows initProc14 (by simp [initProc14])
      (by simp [initProc14, buildWindows])).2
  · intro calib lines
    exact (fold7_windows calib lines.enum initProc7 (by simp [initProc7])
      (by simp [initProc7, buildWindows])).2

end Devtools
